import Mathlib

/-!
Shallow embedding of `mod_http2/h2_bucket_beam.c` (the "beam" thread-to-thread
bucket pipe) and proofs about its send / receive / close / abort / emitted
protocols.

Modelling conventions:
* The beam state is the `Beam` structure; the mutex, condition variable and
  logging are not part of the sequential semantics.  Operations are state
  transformers taken directly from the C functions of the same name.
* Sender-side buckets (`Bucket`) carry an `id` standing for the bucket's
  address (list membership in `hold_list` is by pointer in the C source).
  `len` is the payload length; `lenKnown = false` models
  `b->length == (apr_size_t)-1`.  The APR value `(apr_size_t)-1` itself is
  `SIZE_MAX` below, and `blen` yields the C value of `b->length`.
* Receiver-side buckets (`RBucket`) are the buckets the beam inserts into
  the destination brigade: reconstructed metadata, file buckets inserted via
  `apr_brigade_insert_file`, and beam proxy buckets.
* The bucket library (`apr_bucket_read`, `apr_bucket_split`,
  `apr_bucket_setaside`, `apr_bucket_heap_make`) is an external collaborator;
  it is modelled through its abstract interface: a read resolves the length
  and succeeds, a split at `n` keeps `n` bytes and yields the trailing rest,
  a setaside only rebinds lifetime (no state visible here), and heap_make
  turns the bucket into a heap bucket of the read length.
* Blocking waits on the condition variable are modelled with a fuel bound
  plus an environment function `env : Beam → Beam` giving the beam state
  observed after each wakeup (the effect of the peer thread).  Exhausted
  fuel yields `APR_TIMEUP` when `timeout > 0`; with `timeout = 0` the wait
  never returns by itself, which is represented by the `Option` value
  `none`.
* `bySender : Bool` stands for the C test `c == beam->from`.
* User callbacks (`was_empty_cb`, `cons_ev_cb`, `send_block_cb`) only invoke
  user code and do not change beam state; they are omitted.  `cons_io_cb`
  presence only gates the callback invocation inside `report_consumption`,
  not the `cons_bytes_reported` update, so the update is kept and the call
  dropped.  The global `beamers` registry is modelled as empty.
-/

/-- APR status codes returned by the beam functions. -/
inductive Status where
  | SUCCESS
  | EAGAIN
  | ECONNABORTED
  | EOF
  | TIMEUP
  | ECONNRESET
deriving DecidableEq

/-- apr_read_type_e: blocking or non-blocking operation. -/
inductive Block where
  | blocking
  | nonblocking
deriving DecidableEq

/-- Metadata bucket kinds the receive loop recognises. -/
inductive MetaKind where
  | eos
  | flush
  | error
deriving DecidableEq

/-- Sender-side bucket type tags relevant to the beam code paths. -/
inductive BKind where
  | heap
  | file (refcount : Nat)
  | mmap
  | meta (m : MetaKind)
  | transient
deriving DecidableEq

/-- A sender-side apr_bucket.  `id` models the bucket's address. -/
structure Bucket where
  id : Nat
  kind : BKind
  len : Nat
  lenKnown : Bool
deriving DecidableEq

/-- The APR sentinel `(apr_size_t)-1` meaning "length unknown". -/
def SIZE_MAX : Nat := 2 ^ 64 - 1

/-- The C value of `b->length`: the sentinel when the length is unknown. -/
def blen (b : Bucket) : Nat :=
  if b.lenKnown then b.len else SIZE_MAX

def isMetaB (b : Bucket) : Bool :=
  match b.kind with
  | .meta _ => true
  | _ => false

def isHeapB (b : Bucket) : Bool :=
  match b.kind with
  | .heap => true
  | _ => false

def isFileMmapB (b : Bucket) : Bool :=
  match b.kind with
  | .file _ => true
  | .mmap => true
  | _ => false

/-- Receiver-side bucket type tags: metadata copies, file buckets inserted
via `apr_brigade_insert_file`, and beam proxy buckets. -/
inductive RKind where
  | rmeta (m : MetaKind)
  | fileView (senderId : Nat)
  | proxyRef (senderId : Nat) (senderFileMmap : Bool)
deriving DecidableEq

/-- A receiver-side bucket, as placed into the destination brigade or the
beam's `recv_buffer`. -/
structure RBucket where
  rkind : RKind
  len : Nat
deriving DecidableEq

/-- Memory accounting of `bucket_mem_used` and `h2_beam_bucket_mem_used`:
file and mmap backed buckets count as zero. -/
def rbMemUsed (r : RBucket) : Nat :=
  match r.rkind with
  | .fileView _ => 0
  | .proxyRef _ fm => if fm then 0 else r.len
  | .rmeta _ => r.len

def rbTotalLen (l : List RBucket) : Nat :=
  (l.map RBucket.len).sum

/-- An h2_beam_proxy record: sequence number, back reference to the sender
bucket (by id, `none` once detached), and whether `d->beam` is still set. -/
structure Proxy where
  n : Nat
  bsender : Option Nat
  hasBeam : Bool
deriving DecidableEq

/-- The h2_bucket_beam state guarded by the beam mutex. -/
structure Beam where
  send_list : List Bucket
  hold_list : List Bucket
  purge_list : List Bucket
  proxies : List Proxy
  recv_buffer : Option (List RBucket)
  sent_bytes : Nat
  received_bytes : Nat
  cons_bytes_reported : Nat
  buckets_sent : Nat
  max_buf_size : Nat
  timeout : Nat
  copy_files : Bool
  tx_mem_limits : Bool
  closed : Bool
  aborted : Bool
  close_sent : Bool
deriving DecidableEq

/-- recv_buffer is NULL or an empty brigade. -/
def recvIsEmpty (beam : Beam) : Bool :=
  match beam.recv_buffer with
  | none => true
  | some l => l.isEmpty

/-- buffer_is_empty: recv_buffer NULL or empty, and send_list empty. -/
def buffer_is_empty (beam : Beam) : Bool :=
  recvIsEmpty beam && beam.send_list.isEmpty

/-- r_purge_sent: delete every bucket on the purge list. -/
def r_purge_sent (beam : Beam) : Beam :=
  { beam with purge_list := [] }

/-- calc_buffered: total length of send_list buckets, skipping unknown
lengths and file/mmap buckets. -/
def calc_buffered (beam : Beam) : Nat :=
  (beam.send_list.map fun b =>
    if !b.lenKnown then 0
    else if isFileMmapB b then 0
    else b.len).sum

/-- calc_space_left: remaining room under max_buf_size, or SIZE_MAX when
the beam is unbounded. -/
def calc_space_left (beam : Beam) : Nat :=
  if beam.max_buf_size > 0 then
    if beam.max_buf_size > calc_buffered beam then
      beam.max_buf_size - calc_buffered beam
    else 0
  else SIZE_MAX

/-- report_consumption: report `received_bytes - cons_bytes_reported` when
positive and advance `cons_bytes_reported` by it.  The consumption callback
only receives the value; the counter update is unconditional in the C. -/
def report_consumption_upd (beam : Beam) : Beam :=
  if beam.received_bytes > beam.cons_bytes_reported then
    { beam with cons_bytes_reported :=
        beam.cons_bytes_reported
          + (beam.received_bytes - beam.cons_bytes_reported) }
  else beam

/-- recv_buffer_cleanup: when the recv_buffer exists and is not empty, its
total length is added to `received_bytes` and the brigade is destroyed. -/
def recv_buffer_cleanup (beam : Beam) : Beam :=
  match beam.recv_buffer with
  | none => beam
  | some l =>
      if l.isEmpty then beam
      else
        { beam with
            recv_buffer := none
            received_bytes := beam.received_bytes + rbTotalLen l }

/-- h2_beam_abort.  `bySender` is the C test `c == beam->from`. -/
def h2_beam_abort (beam : Beam) (bySender : Bool) : Beam :=
  let b1 := { beam with aborted := true }
  if bySender then
    let b2 := { b1 with purge_list := [], send_list := [] }
    report_consumption_upd b2
  else
    recv_buffer_cleanup b1

/-- h2_beam_close.  Sets `closed`; the sender side drains the purge list
and reports consumption, the receiver side clears the recv_buffer and sets
`aborted`.  The status is aborted exactly when the beam is aborted at the
end. -/
def h2_beam_close (beam : Beam) (bySender : Bool) : Beam × Status :=
  let b1 := { beam with closed := true }
  let b2 :=
    if bySender then report_consumption_upd (r_purge_sent b1)
    else { (recv_buffer_cleanup b1) with aborted := true }
  (b2, if b2.aborted then Status.ECONNABORTED else Status.SUCCESS)

/-- wait_empty: loop until the buffer is empty.  Non-blocking callers get
EAGAIN; blocking callers wait on the condition variable, observing `env`
applied to the state after each wakeup, and time out (`TIMEUP`) when
`timeout > 0` once the fuel is spent.  With `timeout = 0` an un-signalled
wait never returns, represented by `none`.  Note that, unlike
`wait_not_empty` and `wait_not_full`, the C loop has no `aborted` check. -/
def wait_empty_go : Nat → (Beam → Beam) → Beam → Block → Option Status
  | fuel, env, beam, block =>
    if buffer_is_empty beam then some Status.SUCCESS
    else if block ≠ Block.blocking then some Status.EAGAIN
    else
      match fuel with
      | 0 => if beam.timeout > 0 then some Status.TIMEUP else none
      | Nat.succ f => wait_empty_go f env (env beam) block

/-- h2_beam_wait_empty: wait_empty under the lock. -/
def h2_beam_wait_empty (fuel : Nat) (env : Beam → Beam) (beam : Beam)
    (block : Block) : Option Status :=
  wait_empty_go fuel env beam block

/-- The walk of `h2_beam_emitted` over the hold list: buckets before the
referenced one are moved to purge when they are metadata, the referenced
bucket is moved and the walk stops, data buckets before it stay.  Returns
the remaining hold list and the buckets moved to purge, in move order. -/
def emitted_walk : List Bucket → Nat → List Bucket × List Bucket
  | [], _ => ([], [])
  | b :: rest, target =>
    if b.id = target then (rest, [b])
    else if isMetaB b then
      let (h, m) := emitted_walk rest target
      (h, b :: m)
    else
      let (h, m) := emitted_walk rest target
      (b :: h, m)

/-- h2_beam_emitted: a receiver proxy is being destroyed.  The proxy is
unlinked from the registry; when its sender bucket still sits in the hold
list, the hold list is walked from the head moving metadata and the
referenced bucket to the purge list.  (The defensive not-found branch only
logs and asserts in the C.) -/
def h2_beam_emitted (beam : Beam) (p : Proxy) : Beam :=
  let beam := { beam with proxies := beam.proxies.filter (fun q => q.n ≠ p.n) }
  match p.bsender with
  | none => beam
  | some sid =>
      if sid ∈ beam.hold_list.map Bucket.id then
        let hm := emitted_walk beam.hold_list sid
        { beam with
            hold_list := hm.1
            purge_list := beam.purge_list ++ hm.2 }
      else beam

/-- beam_send_cleanup: the sender pool goes away.  All lists are purged and
every live proxy is detached (`d->beam` and `d->bsender` set to NULL).  The
second component is the list of detached proxy records, as the receiver
still holds them. -/
def beam_send_cleanup (beam : Beam) : Beam × List Proxy :=
  let b1 := r_purge_sent beam
  let b2 := { b1 with send_list := [] }
  let b3 := report_consumption_upd b2
  let detached := b3.proxies.map fun p => { p with hasBeam := false, bsender := none }
  let b4 := { b3 with proxies := [], hold_list := [], purge_list := [] }
  (b4, detached)

/-- beam_bucket_read: reading a proxy bucket of length `blength`.  With a
live sender reference the sender bucket is read and the proxy's own window
is returned; once detached it yields length 0 and APR_ECONNRESET. -/
def beam_bucket_read (p : Proxy) (blength : Nat) : Nat × Status :=
  match p.bsender with
  | some _ => (blength, Status.SUCCESS)
  | none => (0, Status.ECONNRESET)

/-- beam_bucket_destroy (final reference): notify the beam via
h2_beam_emitted while `d->beam` is set; after beam teardown nulled it, the
destruction is a no-op towards the beam. -/
def beam_bucket_destroy (p : Proxy) (beam : Beam) : Beam :=
  if p.hasBeam then h2_beam_emitted beam p else beam

/-- move_to_hold: used by h2_beam_send on an aborted or closed beam.
Despite its name, the C moves every bucket of the caller's brigade to the
beam's send_list (`H2_BLIST_INSERT_TAIL(&beam->send_list, b)`). -/
def move_to_hold (beam : Beam) (sender_bb : List Bucket) : Beam :=
  { beam with send_list := beam.send_list ++ sender_bb }

/-- wait_not_full: loop while `calc_space_left` is 0.  Checks `aborted`,
then the non-blocking mode, invokes the send_block callback (dropped here)
and waits.  Returns the beam state after the wakeups, the space left and
the status (`none` when an infinite wait never returns). -/
def wait_not_full_go : Nat → (Beam → Beam) → Beam → Block →
    Beam × Nat × Option Status
  | fuel, env, beam, block =>
    let left := calc_space_left beam
    if left ≠ 0 then (beam, left, some Status.SUCCESS)
    else if beam.aborted then (beam, 0, some Status.ECONNABORTED)
    else if block ≠ Block.blocking then (beam, 0, some Status.EAGAIN)
    else
      match fuel with
      | 0 => (beam, 0, if beam.timeout > 0 then some Status.TIMEUP else none)
      | Nat.succ f => wait_not_full_go f env (env beam) block

/-- append_bucket: enqueue one sender bucket.  Mirrors the C branch
structure: abort check; metadata is set aside and appended; file and mmap
buckets compute `can_beam` (no copy_files and, for files, refcount 1) and
only enforce the length bound when not beamable; other buckets resolve an
unknown length by a read and always enforce the bound; the bound is
enforced by splitting; zero-length buckets are deleted; heap buckets and
beamable file/mmap buckets are set aside, everything else is read and
replaced by a heap copy.  Returns the new beam, the buckets the caller's
brigade retains in front (the split tail, or the bucket itself on abort),
the space left, and the status. -/
def append_bucket (beam : Beam) (b0 : Bucket) (space_left : Nat) :
    Beam × List Bucket × Nat × Status :=
  if beam.aborted then (beam, [b0], space_left, Status.ECONNABORTED)
  else if isMetaB b0 then
    ({ beam with send_list := beam.send_list ++ [b0] }, [], space_left,
      Status.SUCCESS)
  else
    let can_beam :=
      match b0.kind with
      | .file rc => !beam.copy_files && rc == 1
      | .mmap => !beam.copy_files
      | _ => false
    let check_len :=
      match b0.kind with
      | .file _ => !can_beam
      | .mmap => !can_beam
      | _ => true
    let b1 :=
      if isFileMmapB b0 then b0
      else if b0.lenKnown then b0
      else { b0 with lenKnown := true }
    let split := check_len && blen b1 > space_left
    let b2 := if split then { b1 with len := space_left, lenKnown := true } else b1
    let tail : List Bucket :=
      if split then [{ b1 with len := blen b1 - space_left, lenKnown := true }]
      else []
    let space2 := if check_len then space_left - blen b2 else space_left
    if blen b2 = 0 then (beam, tail, space2, Status.SUCCESS)
    else
      let b3 :=
        if isHeapB b2 then b2
        else if can_beam && isFileMmapB b2 then b2
        else { b2 with kind := BKind.heap, lenKnown := true }
      ({ beam with
          send_list := beam.send_list ++ [b3]
          sent_bytes := beam.sent_bytes + blen b3 },
        tail, space2, Status.SUCCESS)

/-- The enqueue loop of h2_beam_send: while the brigade is not empty and
the status is SUCCESS, wait for space when none is left (draining purge and
notifying was_empty first) and append the first bucket.  Fuel bounds the
iterations; `none` stands for a wait that never returns. -/
def send_loop : Nat → (Beam → Beam) → Beam → List Bucket → Block → Nat →
    Beam × List Bucket × Option Status
  | 0, _, beam, bb, _, _ => (beam, bb, none)
  | Nat.succ f, env, beam, bb, block, space_left =>
    match bb with
    | [] => (beam, [], some Status.SUCCESS)
    | b :: rest =>
      if space_left = 0 then
        let w := wait_not_full_go f env (r_purge_sent beam) block
        if w.2.2 = some Status.SUCCESS then
          send_loop f env w.1 (b :: rest) block w.2.1
        else (w.1, b :: rest, w.2.2)
      else
        let a := append_bucket beam b space_left
        if a.2.2.2 = Status.SUCCESS then
          send_loop f env a.1 (a.2.1 ++ rest) block a.2.2.1
        else (a.1, a.2.1 ++ rest, some a.2.2.2)

/-- h2_beam_send: under the lock, drain the purge list; an aborted beam
swallows the brigade into send_list and returns ECONNABORTED; a closed beam
does the same and returns SUCCESS; otherwise the enqueue loop runs.
report_consumption is called before unlocking (skipped when the loop never
returned).  The second component is what remains of the caller's
brigade. -/
def h2_beam_send (fuel : Nat) (env : Beam → Beam) (beam : Beam)
    (sender_bb : Option (List Bucket)) (block : Block) :
    Beam × List Bucket × Option Status :=
  let beam := r_purge_sent beam
  if beam.aborted then
    (report_consumption_upd (move_to_hold beam (sender_bb.getD [])), [],
      some Status.ECONNABORTED)
  else if beam.closed then
    (report_consumption_upd (move_to_hold beam (sender_bb.getD [])), [],
      some Status.SUCCESS)
  else
    match sender_bb with
    | none => (report_consumption_upd beam, [], some Status.SUCCESS)
    | some bb =>
        let r := send_loop fuel env beam bb block (calc_space_left beam)
        match r.2.2 with
        | some st => (report_consumption_upd r.1, r.2.1, some st)
        | none => (r.1, r.2.1, none)

/-- wait_not_empty: loop while the buffer is empty, checking `aborted`
(ECONNABORTED), `closed` (EOF) and the non-blocking mode (EAGAIN) before
waiting.  Fuel and `env` as in `wait_empty_go`. -/
def wait_not_empty_go : Nat → (Beam → Beam) → Beam → Block →
    Beam × Option Status
  | fuel, env, beam, block =>
    if ¬ buffer_is_empty beam then (beam, some Status.SUCCESS)
    else if beam.aborted then (beam, some Status.ECONNABORTED)
    else if beam.closed then (beam, some Status.EOF)
    else if block ≠ Block.blocking then (beam, some Status.EAGAIN)
    else
      match fuel with
      | 0 => (beam, if beam.timeout > 0 then some Status.TIMEUP else none)
      | Nat.succ f => wait_not_empty_go f env (env beam) block

/-- First loop of h2_beam_receive: move buckets from the recv_buffer to the
destination brigade while `remain >= 0`, stopping before a non-empty bucket
once `remain <= 0`.  Arguments and results: recv_buffer, dest, remain,
transferred count. -/
def drain_recv : List RBucket → List RBucket → Int → Nat →
    List RBucket × List RBucket × Int × Nat
  | [], bb, remain, t => ([], bb, remain, t)
  | r :: rest, bb, remain, t =>
    if remain < 0 then (r :: rest, bb, remain, t)
    else if r.len > 0 ∧ remain ≤ 0 then (r :: rest, bb, remain, t)
    else drain_recv rest (bb ++ [r]) (remain - (r.len : Int)) (t + 1)

/-- Second loop of h2_beam_receive: transform sender buckets into receiver
buckets.  Metadata is reconstructed on the receiver allocator (EOS latches
`close_sent`); zero-length data moves straight to hold; file buckets are
set aside and inserted as receiver file buckets; all other data buckets get
a beam proxy bucket.  The moved sender bucket always goes to the hold list
and `received_bytes` grows by its length.  Returns the remaining send_list,
the beam, the destination, remain, transferred and transferred_buckets. -/
def transfer_send : List Bucket → Beam → List RBucket → Int → Nat → Nat →
    List Bucket × Beam × List RBucket × Int × Nat × Nat
  | [], beam, bb, remain, t, tb => ([], beam, bb, remain, t, tb)
  | b :: rest, beam, bb, remain, t, tb =>
    if remain < 0 then (b :: rest, beam, bb, remain, t, tb)
    else if blen b > 0 ∧ remain ≤ 0 then (b :: rest, beam, bb, remain, t, tb)
    else
      match b.kind with
      | .meta m =>
          let beam1 :=
            if m = MetaKind.eos then { beam with close_sent := true } else beam
          let brecv : RBucket := { rkind := RKind.rmeta m, len := 0 }
          let beam2 := { beam1 with
              hold_list := beam1.hold_list ++ [b]
              received_bytes := beam1.received_bytes + blen b }
          transfer_send rest beam2 (bb ++ [brecv]) (remain - (brecv.len : Int))
            (t + 1) (tb + 1)
      | _ =>
        if blen b = 0 then
          transfer_send rest { beam with hold_list := beam.hold_list ++ [b] }
            bb remain t tb
        else
          match b.kind with
          | .file _ =>
              let ng : RBucket := { rkind := RKind.fileView b.id, len := blen b }
              let beam2 := { beam with
                  hold_list := beam.hold_list ++ [b]
                  received_bytes := beam.received_bytes + blen b }
              transfer_send rest beam2 (bb ++ [ng]) (remain - (blen b : Int))
                (t + 1) (tb + 1)
          | _ =>
              let pr : Proxy :=
                { n := beam.buckets_sent, bsender := some b.id, hasBeam := true }
              let brecv : RBucket :=
                { rkind := RKind.proxyRef b.id (isFileMmapB b), len := blen b }
              let beam2 := { beam with
                  proxies := beam.proxies ++ [pr]
                  buckets_sent := beam.buckets_sent + 1
                  hold_list := beam.hold_list ++ [b]
                  received_bytes := beam.received_bytes + blen b }
              transfer_send rest beam2 (bb ++ [brecv]) (remain - (blen b : Int))
                (t + 1) (tb + 1)

/-- The overshoot handling of h2_beam_receive: rescan the destination with
`remain = readbytes`, accounting buckets by `bucket_mem_used` when
`tx_mem_limits` is set and by length otherwise; at the bucket that turns
`remain` negative, split it and return the brigade tail for the
recv_buffer. -/
def overshoot_split (tx : Bool) : List RBucket → Int →
    List RBucket × Option (List RBucket)
  | [], _ => ([], none)
  | r :: rest, remain =>
    let used : Int := if tx then (rbMemUsed r : Int) else (r.len : Int)
    let remain1 := remain - used
    if remain1 < 0 then
      let keep : Nat := ((r.len : Int) + remain1).toNat
      ([{ r with len := keep }], some ({ r with len := r.len - keep } :: rest))
    else
      let bt := overshoot_split tx rest remain1
      (r :: bt.1, bt.2)

/-- One pass of the h2_beam_receive transfer section (between the `transfer`
label and the status decision): drain the recv_buffer, transfer from the
send_list, push any overshoot back into the recv_buffer, and synthesise the
final EOS when the beam is closed, drained and `close_sent` is not yet
latched.  Returns the beam, the destination brigade and `transferred`. -/
def receive_pass (beam : Beam) (bb : List RBucket) (readbytes : Int) :
    Beam × List RBucket × Nat :=
  let d := drain_recv (beam.recv_buffer.getD []) bb readbytes 0
  let beam1 := { beam with recv_buffer := beam.recv_buffer.map fun _ => d.1 }
  let s := transfer_send beam1.send_list beam1 d.2.1 d.2.2.1 d.2.2.2 0
  let beam2 := { s.2.1 with send_list := s.1 }
  let bb2 := s.2.2.1
  let remain2 := s.2.2.2.1
  let t2 := s.2.2.2.2.1
  let ob :=
    if remain2 < 0 then
      match overshoot_split beam2.tx_mem_limits bb2 readbytes with
      | (bbn, some tl) =>
          (bbn, { beam2 with recv_buffer := some (tl ++ beam2.recv_buffer.getD []) })
      | (bbn, none) => (bbn, beam2)
    else (bb2, beam2)
  let beam3 := ob.2
  if beam3.closed && buffer_is_empty beam3 && !beam3.close_sent then
    ({ beam3 with close_sent := true },
      ob.1 ++ [{ rkind := RKind.rmeta MetaKind.eos, len := 0 }], t2 + 1)
  else (beam3, ob.1, t2)

/-- The h2_beam_receive state machine: abort check, one transfer pass, then
SUCCESS when buckets moved, EOF when the beam is closed, and otherwise
wait_not_empty and retry.  Fuel bounds the retries; `none` stands for a
blocking wait that never returns. -/
def receive_go (env : Beam → Beam) : Nat → Beam → List RBucket → Block → Int →
    Beam × List RBucket × Option Status
  | fuel, beam, bb, block, readbytes =>
    if beam.aborted then
      (recv_buffer_cleanup beam, bb, some Status.ECONNABORTED)
    else
      let p := receive_pass beam bb readbytes
      if p.2.2 > 0 then (p.1, p.2.1, some Status.SUCCESS)
      else if p.1.closed then (p.1, p.2.1, some Status.EOF)
      else
        let w := wait_not_empty_go fuel env p.1 block
        if w.2 = some Status.SUCCESS then
          match fuel with
          | 0 => (w.1, p.2.1, none)
          | Nat.succ f => receive_go env f w.1 p.2.1 block readbytes
        else (w.1, p.2.1, w.2)

/-- h2_beam_receive: `readbytes <= 0` means unbounded (APR_SIZE_MAX); the
`pclosed` out parameter is the final beam's `closed` flag and is omitted
from the result. -/
def h2_beam_receive (fuel : Nat) (env : Beam → Beam) (beam : Beam)
    (bb : List RBucket) (block : Block) (readbytes : Int) :
    Beam × List RBucket × Option Status :=
  let rb := if readbytes ≤ 0 then (SIZE_MAX : Int) else readbytes
  receive_go env fuel beam bb block rb

/-- A base beam state: freshly created beam (h2_beam_create zeroes the
structure and sets tx_mem_limits = 1), with unbounded buffer and infinite
timeout. -/
def beam0 : Beam :=
  { send_list := []
    hold_list := []
    purge_list := []
    proxies := []
    recv_buffer := none
    sent_bytes := 0
    received_bytes := 0
    cons_bytes_reported := 0
    buckets_sent := 0
    max_buf_size := 0
    timeout := 0
    copy_files := false
    tx_mem_limits := true
    closed := false
    aborted := false
    close_sent := false }

/-- The beam operations as a single step type, for stating invariants that
are preserved by every operation. -/
inductive BeamOp where
  | send (fuel : Nat) (env : Beam → Beam) (bb : Option (List Bucket)) (block : Block)
  | receive (fuel : Nat) (env : Beam → Beam) (bb : List RBucket) (block : Block)
      (readbytes : Int)
  | close (bySender : Bool)
  | abort (bySender : Bool)
  | emitted (p : Proxy)
  | destroyProxy (p : Proxy)
  | sendCleanup
  | reportConsumption

/-- The beam state after one operation. -/
def applyOp (op : BeamOp) (beam : Beam) : Beam :=
  match op with
  | .send fuel env bb block => (h2_beam_send fuel env beam bb block).1
  | .receive fuel env bb block rb => (h2_beam_receive fuel env beam bb block rb).1
  | .close bySender => (h2_beam_close beam bySender).1
  | .abort bySender => h2_beam_abort beam bySender
  | .emitted p => h2_beam_emitted beam p
  | .destroyProxy p => beam_bucket_destroy p beam
  | .sendCleanup => (beam_send_cleanup beam).1
  | .reportConsumption => report_consumption_upd beam

/-- Counters evolve admissibly from `s` to `t`: none of the three byte
counters decreases, and `cons_bytes_reported ≤ received_bytes` is
preserved. -/
def CounterStep (s t : Beam) : Prop :=
  s.sent_bytes ≤ t.sent_bytes ∧
  s.received_bytes ≤ t.received_bytes ∧
  s.cons_bytes_reported ≤ t.cons_bytes_reported ∧
  (s.cons_bytes_reported ≤ s.received_bytes →
    t.cons_bytes_reported ≤ t.received_bytes)

/-- The peer activity observed during a blocking wait evolves the counters
admissibly (it consists of beam operations itself). -/
def EnvCounterMono (env : Beam → Beam) : Prop :=
  ∀ s, CounterStep s (env s)

/-- Hypothesis on the wait environment of an operation. -/
def opCountersOK : BeamOp → Prop
  | .send _ env _ _ => EnvCounterMono env
  | .receive _ env _ _ _ => EnvCounterMono env
  | _ => True

/-- The peer activity observed during a blocking send wait keeps the
buffer bound: it does not change `max_buf_size` and never grows the
buffered amount past the bound (the receiver only removes buckets from the
send list). -/
def EnvBound (N : Nat) (env : Beam → Beam) : Prop :=
  ∀ s, s.max_buf_size = N → calc_buffered s ≤ N →
    (env s).max_buf_size = N ∧ calc_buffered (env s) ≤ N

/-- The receiver-side EOS bucket the beam constructs. -/
def eosR : RBucket := { rkind := RKind.rmeta MetaKind.eos, len := 0 }

/-- Concrete buckets for the witnesses and counterexamples. -/
def bktA : Bucket := { id := 0, kind := BKind.heap, len := 10, lenKnown := true }

def bktM : Bucket := { id := 1, kind := BKind.meta MetaKind.flush, len := 0, lenKnown := true }

def bktB : Bucket := { id := 2, kind := BKind.heap, len := 10, lenKnown := true }

def bkt100 : Bucket := { id := 7, kind := BKind.heap, len := 100, lenKnown := true }

def bkt2 : Bucket := { id := 11, kind := BKind.heap, len := 2, lenKnown := true }

def bktF0 : Bucket := { id := 9, kind := BKind.file 1, len := 0, lenKnown := true }

def bktF7 : Bucket := { id := 9, kind := BKind.file 1, len := 7, lenKnown := true }

/-- Beam with three buckets (data, metadata, data) in hold, as after the
receiver obtained proxies for them. -/
def beamHold : Beam := { beam0 with hold_list := [bktA, bktM, bktB] }

/-- The proxy of the later data bucket `bktB`. -/
def proxyB : Proxy := { n := 2, bsender := some 2, hasBeam := true }

def beamAbortedCex : Beam := { beam0 with aborted := true }

/-- Aborted beam with a bucket still buffered and a finite timeout. -/
def beamWaitCex : Beam :=
  { beam0 with send_list := [bkt100], aborted := true, timeout := 1 }

/-- Closed beam with `max_buf_size = 1`. -/
def beamClosedN : Beam := { beam0 with max_buf_size := 1, closed := true }

/-- Beam with one live proxy, about to be torn down on the sender side. -/
def beamOneProxy : Beam :=
  { beam0 with proxies := [{ n := 0, bsender := some 5, hasBeam := true }] }

/-- The detached record of that proxy after `beam_send_cleanup`. -/
def proxyDetached : Proxy := { n := 0, bsender := none, hasBeam := false }

/-- Open beam with `max_buf_size = 3`. -/
def beamMax3 : Beam := { beam0 with max_buf_size := 3 }

/-- The counter counterexample trace: send 100 heap bytes, receive with a
50 byte limit (which parks a 50 byte split tail in the recv_buffer), then
the receiver aborts. -/
def c4AfterSend : Beam :=
  (h2_beam_send 5 id beam0 (some [bkt100]) Block.nonblocking).1

def c4AfterRecv : Beam :=
  (h2_beam_receive 1 id c4AfterSend [] Block.nonblocking 50).1

def c4AfterAbort : Beam := h2_beam_abort c4AfterRecv false

/-! Helper lemmas shared by the claim theorems. -/

theorem report_consumption_upd_eq (b : Beam) :
    report_consumption_upd b
      = { b with
          cons_bytes_reported := max b.cons_bytes_reported b.received_bytes } := by
  rcases b with ⟨sl, hl, pl, pr, rb, sb, rcv, cbr, bs, mbs, tmo, cf, tx, cl, ab, cs⟩
  by_cases h : rcv > cbr <;>
    simp [report_consumption_upd, h, Beam.mk.injEq] <;> omega

theorem recvIsEmpty_cleanup (b : Beam) :
    recvIsEmpty (recv_buffer_cleanup b) = true := by
  unfold recv_buffer_cleanup
  cases h : b.recv_buffer with
  | none => simp [recvIsEmpty, h]
  | some l =>
      cases hl : l.isEmpty with
      | true => simp [recvIsEmpty, h, hl]
      | false => simp [recvIsEmpty, hl]

theorem wait_empty_go_status (fuel : Nat) (env : Beam → Beam) (beam : Beam)
    (block : Block) :
    wait_empty_go fuel env beam block = some Status.SUCCESS ∨
    wait_empty_go fuel env beam block = some Status.EAGAIN ∨
    wait_empty_go fuel env beam block = some Status.TIMEUP ∨
    wait_empty_go fuel env beam block = none := by
  induction fuel generalizing beam with
  | zero =>
      have hu : wait_empty_go 0 env beam block
          = (if buffer_is_empty beam then some Status.SUCCESS
             else if block ≠ Block.blocking then some Status.EAGAIN
             else if beam.timeout > 0 then some Status.TIMEUP else none) := rfl
      rw [hu]
      split
      · exact Or.inl rfl
      split
      · exact Or.inr (Or.inl rfl)
      split
      · exact Or.inr (Or.inr (Or.inl rfl))
      · exact Or.inr (Or.inr (Or.inr rfl))
  | succ f ih =>
      have hu : wait_empty_go (f + 1) env beam block
          = (if buffer_is_empty beam then some Status.SUCCESS
             else if block ≠ Block.blocking then some Status.EAGAIN
             else wait_empty_go f env (env beam) block) := rfl
      rw [hu]
      split
      · exact Or.inl rfl
      split
      · exact Or.inr (Or.inl rfl)
      · exact ih (env beam)

theorem detached_proxy_fields (beam : Beam) (p : Proxy)
    (hp : p ∈ (beam_send_cleanup beam).2) :
    p.bsender = none ∧ p.hasBeam = false := by
  unfold beam_send_cleanup at hp
  simp only [List.mem_map] at hp
  obtain ⟨q, _, rfl⟩ := hp
  exact ⟨rfl, rfl⟩

theorem emitted_walk_eq (pre : List Bucket) (target : Bucket) (post : List Bucket)
    (hpre : target.id ∉ pre.map Bucket.id) :
    emitted_walk (pre ++ target :: post) target.id
      = (pre.filter (fun b => !isMetaB b) ++ post,
         pre.filter (fun b => isMetaB b) ++ [target]) := by
  induction pre with
  | nil => simp [emitted_walk]
  | cons b rest ih =>
      simp only [List.map_cons, List.mem_cons] at hpre
      push_neg at hpre
      have hb : ¬ (b.id = target.id) := fun h => hpre.1 h.symm
      have ihr := ih hpre.2
      simp only [List.cons_append, emitted_walk, if_neg hb, ihr]
      cases hm : isMetaB b <;>
        simp [hm, List.filter_cons, ihr]

/-! Theorems for the claims. -/

/-- C6: a close initiated by the receiver side (the caller is not the
sender connection) clears the recv_buffer, sets the aborted flag, and the
call returns the aborted status, never success. -/
theorem receiver_close_aborts (beam : Beam) :
    (h2_beam_close beam false).1.aborted = true ∧
    recvIsEmpty (h2_beam_close beam false).1 = true ∧
    (h2_beam_close beam false).2 = Status.ECONNABORTED := by
  have hre : recvIsEmpty (recv_buffer_cleanup { beam with closed := true }) = true :=
    recvIsEmpty_cleanup _
  refine ⟨rfl, ?_, rfl⟩
  simpa [h2_beam_close, recvIsEmpty] using hre

/-- C9 (amended): wait_empty returns SUCCESS once the buffer is empty,
EAGAIN in non-blocking mode and TIMEUP when a positive timeout elapses, or
never returns (infinite wait); it has no aborted check and so never
returns the aborted status, even when the beam is aborted with buckets
still buffered. -/
theorem wait_empty_status_set (fuel : Nat) (env : Beam → Beam) (beam : Beam)
    (block : Block) :
    h2_beam_wait_empty fuel env beam block = some Status.SUCCESS ∨
    h2_beam_wait_empty fuel env beam block = some Status.EAGAIN ∨
    h2_beam_wait_empty fuel env beam block = some Status.TIMEUP ∨
    h2_beam_wait_empty fuel env beam block = none :=
  wait_empty_go_status fuel env beam block

/-- C9 counterexample: a blocking wait_empty on an aborted beam that still
holds a bucket, with a positive timeout, returns TIMEUP and not the
aborted status. -/
theorem wait_empty_aborted_timeout_cex :
    beamWaitCex.aborted = true ∧
    buffer_is_empty beamWaitCex = false ∧
    h2_beam_wait_empty 0 id beamWaitCex Block.blocking = some Status.TIMEUP ∧
    h2_beam_wait_empty 0 id beamWaitCex Block.blocking
      ≠ some Status.ECONNABORTED := by
  refine ⟨rfl, rfl, rfl, ?_⟩
  intro h
  exact Status.noConfusion (Option.some.inj h)

/-- C10: after the sender-side teardown detached a proxy (nulled its beam
and sender references), reading the proxy yields length 0 with
APR_ECONNRESET, and destroying it no longer touches the beam. -/
theorem detached_proxy_read_reset (beam : Beam) (p : Proxy) (blength : Nat)
    (beam2 : Beam) (hp : p ∈ (beam_send_cleanup beam).2) :
    beam_bucket_read p blength = (0, Status.ECONNRESET) ∧
    beam_bucket_destroy p beam2 = beam2 := by
  obtain ⟨hb, hbm⟩ := detached_proxy_fields beam p hp
  constructor
  · simp [beam_bucket_read, hb]
  · simp [beam_bucket_destroy, hbm]

/-- C10 witness: the theorem applied to a beam with one live proxy. -/
theorem detached_proxy_read_reset_witness :
    beam_bucket_read proxyDetached 4 = (0, Status.ECONNRESET) ∧
    beam_bucket_destroy proxyDetached beam0 = beam0 :=
  detached_proxy_read_reset beamOneProxy proxyDetached 4 beam0 (by decide)

/-- C1 (amended): send on an aborted beam moves the caller's buckets to the
beam's send_list (not the hold_list; the helper `move_to_hold` inserts into
`send_list`) and returns the aborted status; send on a closed, non-aborted
beam does the same and returns success.  In both cases the hold list and
`sent_bytes` are unchanged. -/
theorem send_on_aborted_or_closed (fuel : Nat) (env : Beam → Beam)
    (beam : Beam) (bb : List Bucket) (block : Block) :
    (beam.aborted = true →
      (h2_beam_send fuel env beam (some bb) block).1.hold_list = beam.hold_list ∧
      (h2_beam_send fuel env beam (some bb) block).1.send_list
        = beam.send_list ++ bb ∧
      (h2_beam_send fuel env beam (some bb) block).1.sent_bytes
        = beam.sent_bytes ∧
      (h2_beam_send fuel env beam (some bb) block).2.2
        = some Status.ECONNABORTED) ∧
    (beam.aborted = false → beam.closed = true →
      (h2_beam_send fuel env beam (some bb) block).1.hold_list = beam.hold_list ∧
      (h2_beam_send fuel env beam (some bb) block).1.send_list
        = beam.send_list ++ bb ∧
      (h2_beam_send fuel env beam (some bb) block).1.sent_bytes
        = beam.sent_bytes ∧
      (h2_beam_send fuel env beam (some bb) block).2.2 = some Status.SUCCESS) := by
  constructor
  · intro hab
    simp [h2_beam_send, r_purge_sent, move_to_hold, hab, report_consumption_upd_eq]
  · intro hab hcl
    simp [h2_beam_send, r_purge_sent, move_to_hold, hab, hcl,
      report_consumption_upd_eq]

/-- C1 counterexample: on an aborted beam, the sent brigade does not land
in the hold_list (which the claim asserts); it lands in the send_list. -/
theorem send_aborted_hold_cex :
    beamAbortedCex.aborted = true ∧
    (h2_beam_send 5 id beamAbortedCex (some [bkt100]) Block.blocking).1.hold_list
      = [] ∧
    (h2_beam_send 5 id beamAbortedCex (some [bkt100]) Block.blocking).1.send_list
      = [bkt100] ∧
    (h2_beam_send 5 id beamAbortedCex (some [bkt100]) Block.blocking).2.2
      = some Status.ECONNABORTED := by
  decide

/-- C1 witness: the amended theorem applied at a concrete aborted beam. -/
theorem send_on_aborted_or_closed_witness :
    (h2_beam_send 5 id beamAbortedCex (some [bkt100]) Block.blocking).1.send_list
      = [bkt100] ∧
    (h2_beam_send 5 id beamAbortedCex (some [bkt100]) Block.blocking).2.2
      = some Status.ECONNABORTED := by
  have h := (send_on_aborted_or_closed 5 id beamAbortedCex [bkt100]
    Block.blocking).1 rfl
  exact ⟨h.2.1, h.2.2.2⟩

/-- C2 (amended): when a proxy for a sender bucket still in hold is
destroyed, the beam walks hold from the head up to that bucket: metadata
buckets before it are moved to purge immediately (together with the
referenced bucket), while non-metadata data buckets before it stay in
hold.  Hence dropping a later data proxy purges the intervening metadata
at once; only the earlier data bucket stays behind. -/
theorem emitted_purges_meta_and_target (beam : Beam) (p : Proxy)
    (pre post : List Bucket) (target : Bucket)
    (hbs : p.bsender = some target.id)
    (hh : beam.hold_list = pre ++ target :: post)
    (hpre : target.id ∉ pre.map Bucket.id) :
    (h2_beam_emitted beam p).hold_list
      = pre.filter (fun b => !isMetaB b) ++ post ∧
    (h2_beam_emitted beam p).purge_list
      = beam.purge_list ++ (pre.filter (fun b => isMetaB b) ++ [target]) := by
  have hmem : target.id ∈ beam.hold_list.map Bucket.id := by
    rw [hh]; simp
  unfold h2_beam_emitted
  rw [hbs]
  simp only [hmem, if_pos]
  rw [hh, emitted_walk_eq pre target post hpre]
  exact ⟨rfl, rfl⟩

/-- C2 counterexample: hold is data `bktA`, metadata `bktM`, data `bktB`;
destroying the proxy of the later data bucket `bktB` moves `bktM` (and
`bktB`) to purge at once — `bktM` does not stay in hold as the claim's
scenario asserts. -/
theorem emitted_meta_stays_cex :
    (h2_beam_emitted beamHold proxyB).hold_list = [bktA] ∧
    bktM ∉ (h2_beam_emitted beamHold proxyB).hold_list ∧
    (h2_beam_emitted beamHold proxyB).purge_list = [bktM, bktB] := by
  decide

theorem receive_go_eq (env : Beam → Beam) (fuel : Nat) (beam : Beam)
    (bb : List RBucket) (block : Block) (readbytes : Int) :
    receive_go env fuel beam bb block readbytes
      = if beam.aborted then
          (recv_buffer_cleanup beam, bb, some Status.ECONNABORTED)
        else
          let p := receive_pass beam bb readbytes
          if p.2.2 > 0 then (p.1, p.2.1, some Status.SUCCESS)
          else if p.1.closed then (p.1, p.2.1, some Status.EOF)
          else
            let w := wait_not_empty_go fuel env p.1 block
            if w.2 = some Status.SUCCESS then
              match fuel with
              | 0 => (w.1, p.2.1, none)
              | Nat.succ f => receive_go env f w.1 p.2.1 block readbytes
            else (w.1, p.2.1, w.2) :=
  receive_go.eq_1 env fuel beam bb block readbytes

theorem wait_not_empty_go_eq (fuel : Nat) (env : Beam → Beam) (beam : Beam)
    (block : Block) :
    wait_not_empty_go fuel env beam block
      = if ¬ buffer_is_empty beam then (beam, some Status.SUCCESS)
        else if beam.aborted then (beam, some Status.ECONNABORTED)
        else if beam.closed then (beam, some Status.EOF)
        else if block ≠ Block.blocking then (beam, some Status.EAGAIN)
        else
          match fuel with
          | 0 => (beam, if beam.timeout > 0 then some Status.TIMEUP else none)
          | Nat.succ f => wait_not_empty_go f env (env beam) block := by
  cases fuel <;> rfl

theorem receive_pass_empty (beam : Beam) (bb : List RBucket) (readbytes : Int)
    (hsl : beam.send_list = []) (hre : recvIsEmpty beam = true)
    (hrb : 0 ≤ readbytes) :
    receive_pass beam bb readbytes
      = if beam.closed && !beam.close_sent
        then ({ beam with close_sent := true }, bb ++ [eosR], 1)
        else (beam, bb, 0) := by
  have hnlt : ¬ readbytes < 0 := not_lt.mpr hrb
  rcases beam with ⟨sl, hl, pl, pr, rb, sb, rcv, cbr, bs, mbs, tmo, cf, tx, cl, ab, cs⟩
  simp only at hsl
  subst hsl
  cases rb with
  | none =>
      simp [receive_pass, drain_recv, transfer_send, buffer_is_empty,
        recvIsEmpty, hnlt, eosR]
  | some l =>
      have hl0 : l = [] := by simpa [recvIsEmpty] using hre
      subst hl0
      simp [receive_pass, drain_recv, transfer_send, buffer_is_empty,
        recvIsEmpty, hnlt, eosR]

theorem receive_pass_single_eos (beam : Beam) (bb : List RBucket)
    (readbytes : Int) (e : Bucket) (hsl : beam.send_list = [e])
    (he : e.kind = BKind.meta MetaKind.eos) (hre : recvIsEmpty beam = true)
    (hrb : 0 < readbytes) :
    receive_pass beam bb readbytes
      = ({ beam with
            send_list := []
            close_sent := true
            hold_list := beam.hold_list ++ [e]
            received_bytes := beam.received_bytes + blen e },
         bb ++ [eosR], 1) := by
  have hnlt : ¬ readbytes < 0 := by omega
  have hnle : ¬ readbytes ≤ 0 := by omega
  rcases beam with ⟨sl, hl, pl, pr, rb, sb, rcv, cbr, bs, mbs, tmo, cf, tx, cl, ab, cs⟩
  simp only at hsl
  subst hsl
  cases rb with
  | none =>
      simp [receive_pass, drain_recv, transfer_send, buffer_is_empty,
        recvIsEmpty, hnlt, hnle, he, eosR]
  | some l =>
      have hl0 : l = [] := by simpa [recvIsEmpty] using hre
      subst hl0
      simp [receive_pass, drain_recv, transfer_send, buffer_is_empty,
        recvIsEmpty, hnlt, hnle, he, eosR]

/-- C2 witness: the amended theorem applied to the concrete hold list. -/
theorem emitted_purges_meta_and_target_witness :
    (h2_beam_emitted beamHold proxyB).hold_list = [bktA] ∧
    (h2_beam_emitted beamHold proxyB).purge_list = [bktM, bktB] := by
  obtain ⟨h1, h2⟩ := emitted_purges_meta_and_target beamHold proxyB
    [bktA, bktM] [] bktB rfl rfl (by decide)
  rw [h1, h2]
  exact ⟨by decide, by decide⟩

/-- C7 (amended): for every non-empty file bucket appended on a
non-aborted beam with enough space, zero-copy transfer (the bucket is set
aside and enqueued unchanged) happens exactly when copy_files is disabled
and the file refcount is 1; in every other case the bucket is read and
enqueued as a heap copy.  (A zero-length file bucket is simply deleted,
see the counterexample.) -/
theorem append_file_zero_copy_iff (beam : Beam) (b : Bucket)
    (rc space_left : Nat) (hab : beam.aborted = false)
    (hk : b.kind = BKind.file rc) (hlk : b.lenKnown = true)
    (hpos : 0 < b.len) (hfit : b.len ≤ space_left) :
    (beam.copy_files = false ∧ rc = 1 →
      append_bucket beam b space_left
        = ({ beam with
              send_list := beam.send_list ++ [b]
              sent_bytes := beam.sent_bytes + b.len },
           [], space_left, Status.SUCCESS)) ∧
    (beam.copy_files = true ∨ rc ≠ 1 →
      append_bucket beam b space_left
        = ({ beam with
              send_list := beam.send_list
                ++ [{ b with kind := BKind.heap, lenKnown := true }]
              sent_bytes := beam.sent_bytes + b.len },
           [], space_left - b.len, Status.SUCCESS)) := by
  have hmeta : isMetaB b = false := by simp [isMetaB, hk]
  have hfm : isFileMmapB b = true := by simp [isFileMmapB, hk]
  have hheap : isHeapB b = false := by simp [isHeapB, hk]
  have hblen : blen b = b.len := by simp [blen, hlk]
  have hnz : ¬ b.len = 0 := by omega
  have hnsp : ¬ b.len > space_left := by omega
  constructor
  · rintro ⟨hcf, hrc⟩
    subst hrc
    simp [append_bucket, hab, hmeta, hfm, hheap, hblen, hk, hcf, hnz]
  · intro hother
    rcases hother with hcf | hrc
    · simp [append_bucket, hab, hmeta, hfm, hheap, blen, hlk, hk, hnz, hnsp, hcf]
    · simp [append_bucket, hab, hmeta, hfm, hheap, blen, hlk, hk, hnz, hnsp, hrc]

/-- C7 counterexample: a zero-length file bucket with refcount 1 on a beam
with copy_files disabled satisfies the claim's zero-copy condition, yet it
is neither set aside nor enqueued: append_bucket deletes it and leaves the
beam unchanged. -/
theorem file_zero_copy_zero_len_cex :
    beam0.copy_files = false ∧ bktF0.kind = BKind.file 1 ∧
    beam0.aborted = false ∧
    append_bucket beam0 bktF0 5 = (beam0, [], 5, Status.SUCCESS) := by
  decide

/-- C7 witness: the amended theorem applied to a 7-byte exclusive file
bucket (zero-copy) on the default beam. -/
theorem append_file_zero_copy_iff_witness :
    append_bucket beam0 bktF7 100
      = ({ beam0 with
            send_list := beam0.send_list ++ [bktF7]
            sent_bytes := beam0.sent_bytes + bktF7.len },
         [], 100, Status.SUCCESS) :=
  (append_file_zero_copy_iff beam0 bktF7 1 100 rfl rfl rfl (by decide)
    (by decide)).1 ⟨rfl, rfl⟩

/-- C8: a non-blocking receive on an open (not closed, not aborted) beam
with empty send_list and empty recv_buffer returns would-block and appends
nothing to the destination brigade. -/
theorem receive_nonblocking_empty_eagain (fuel : Nat) (env : Beam → Beam)
    (beam : Beam) (bb : List RBucket) (readbytes : Int)
    (hab : beam.aborted = false) (hcl : beam.closed = false)
    (hsl : beam.send_list = []) (hre : recvIsEmpty beam = true) :
    h2_beam_receive fuel env beam bb Block.nonblocking readbytes
      = (beam, bb, some Status.EAGAIN) := by
  have hbe : buffer_is_empty beam = true := by
    simp [buffer_is_empty, hre, hsl]
  have hsm : (0:Int) < (SIZE_MAX : Int) := by norm_num [SIZE_MAX]
  unfold h2_beam_receive
  rw [receive_go_eq]
  rw [receive_pass_empty beam bb _ hsl hre (by split <;> omega)]
  simp only [hcl, Bool.false_and, if_false, Bool.false_eq_true]
  rw [wait_not_empty_go_eq]
  simp [hbe, hab, hcl]

/-- C8 witness: the theorem at the freshly created beam. -/
theorem receive_nonblocking_empty_eagain_witness :
    h2_beam_receive 3 id beam0 [] Block.nonblocking (-1)
      = (beam0, [], some Status.EAGAIN) :=
  receive_nonblocking_empty_eagain 3 id beam0 [] (-1) rfl rfl rfl rfl

/-- C3: on a closed, non-aborted beam whose send_list and recv_buffer are
fully drained, receive appends exactly one EOS bucket and latches
close_sent (first conjunct: synthesised at empty+closed; third conjunct:
from a sender EOS bucket at the head of the send_list), and once
close_sent is latched every further receive on the drained beam returns
EOF and appends nothing (second conjunct, which applies to the post-state
of the other two). -/
theorem receive_close_eos_protocol (fuel : Nat) (env : Beam → Beam)
    (beam : Beam) (bb : List RBucket) (block : Block) (readbytes : Int)
    (hab : beam.aborted = false) (hcl : beam.closed = true)
    (hre : recvIsEmpty beam = true) :
    (beam.send_list = [] → beam.close_sent = false →
      h2_beam_receive fuel env beam bb block readbytes
        = ({ beam with close_sent := true }, bb ++ [eosR],
           some Status.SUCCESS)) ∧
    (beam.send_list = [] → beam.close_sent = true →
      h2_beam_receive fuel env beam bb block readbytes
        = (beam, bb, some Status.EOF)) ∧
    (∀ e, beam.send_list = [e] → e.kind = BKind.meta MetaKind.eos →
      h2_beam_receive fuel env beam bb block readbytes
        = ({ beam with
              send_list := []
              close_sent := true
              hold_list := beam.hold_list ++ [e]
              received_bytes := beam.received_bytes + blen e },
           bb ++ [eosR], some Status.SUCCESS)) := by
  have hsm : (0:Int) < (SIZE_MAX : Int) := by norm_num [SIZE_MAX]
  have hrb0 : (0:Int) ≤ (if readbytes ≤ 0 then (SIZE_MAX : Int) else readbytes) := by
    split <;> omega
  have hrbpos : (0:Int) < (if readbytes ≤ 0 then (SIZE_MAX : Int) else readbytes) := by
    split <;> omega
  refine ⟨?_, ?_, ?_⟩
  · intro hsl hcs
    unfold h2_beam_receive
    rw [receive_go_eq]
    rw [receive_pass_empty beam bb _ hsl hre hrb0]
    simp [hcl, hcs, hab]
  · intro hsl hcs
    unfold h2_beam_receive
    rw [receive_go_eq]
    rw [receive_pass_empty beam bb _ hsl hre hrb0]
    simp [hcl, hcs, hab]
  · intro e hsl he
    unfold h2_beam_receive
    rw [receive_go_eq]
    rw [receive_pass_single_eos beam bb _ e hsl he hre hrbpos]
    simp [hab]

/-- C3 witness: first conjunct at a freshly closed, drained beam. -/
theorem receive_close_eos_protocol_witness :
    h2_beam_receive 1 id { beam0 with closed := true } [] Block.nonblocking (-1)
      = ({ beam0 with closed := true, close_sent := true }, [eosR],
         some Status.SUCCESS) := by
  have h := (receive_close_eos_protocol 1 id { beam0 with closed := true }
    [] Block.nonblocking (-1) rfl rfl rfl).1 rfl rfl
  simpa using h

theorem calc_buffered_snoc (beam : Beam) (x : Bucket) (l : List Bucket)
    (s : Nat) :
    calc_buffered { beam with send_list := l ++ [x], sent_bytes := s }
      = (l.map fun b =>
          if !b.lenKnown then 0
          else if isFileMmapB b then 0
          else b.len).sum
        + (if !x.lenKnown then 0 else if isFileMmapB x then 0 else x.len) := by
  simp [calc_buffered]

theorem calc_buffered_meta_snoc (beam : Beam) (x : Bucket) (l : List Bucket) :
    calc_buffered { beam with send_list := l ++ [x] }
      = (l.map fun b =>
          if !b.lenKnown then 0
          else if isFileMmapB b then 0
          else b.len).sum
        + (if !x.lenKnown then 0 else if isFileMmapB x then 0 else x.len) := by
  simp [calc_buffered]

theorem append_bucket_bound (beam : Beam) (b : Bucket) (space_left N : Nat)
    (hmeta : isMetaB b = true → blen b = 0)
    (hlen : b.len ≤ SIZE_MAX)
    (hinv : calc_buffered beam + space_left ≤ N) :
    calc_buffered (append_bucket beam b space_left).1
      + (append_bucket beam b space_left).2.2.1 ≤ N ∧
    ∀ c ∈ (append_bucket beam b space_left).2.1,
      (isMetaB c = true → blen c = 0) ∧ c.len ≤ SIZE_MAX := by
  have hsm : 0 < SIZE_MAX := by norm_num [SIZE_MAX]
  by_cases hab : beam.aborted
  · simp only [append_bucket, hab, if_true]
    refine ⟨by omega, ?_⟩
    intro c hc
    simp only [List.mem_singleton] at hc
    subst hc
    exact ⟨hmeta, hlen⟩
  · rcases b with ⟨bid, bkind, bl, blk⟩
    simp only [blen] at hmeta
    simp only at hlen
    simp [calc_buffered, isFileMmapB] at hinv
    cases bkind with
    | meta m =>
        have h0 : (if blk then bl else SIZE_MAX) = 0 := hmeta (by simp [isMetaB])
        have hblk : blk = true ∧ bl = 0 := by
          cases blk <;> simp_all
        obtain ⟨hb1, hb2⟩ := hblk
        subst hb1; subst hb2
        simp [append_bucket, hab, isMetaB, calc_buffered, isFileMmapB] <;> omega
    | heap =>
        cases hblk : blk <;>
        · by_cases hsp : bl > space_left
          · by_cases hz : space_left = 0
            · subst hz
              simp [append_bucket, hab, isMetaB, isHeapB, isFileMmapB, blen,
                hsp, calc_buffered] <;> omega
            · simp [append_bucket, hab, isMetaB, isHeapB, isFileMmapB, blen,
                hsp, hz, calc_buffered] <;> omega
          · by_cases hz : bl = 0
            · simp [append_bucket, hab, isMetaB, isHeapB, isFileMmapB, blen,
                hsp, hz, calc_buffered] <;> omega
            · simp [append_bucket, hab, isMetaB, isHeapB, isFileMmapB, blen,
                hsp, hz, calc_buffered] <;> omega
    | transient =>
        cases hblk : blk <;>
        · by_cases hsp : bl > space_left
          · by_cases hz : space_left = 0
            · subst hz
              simp [append_bucket, hab, isMetaB, isHeapB, isFileMmapB, blen,
                hsp, calc_buffered] <;> omega
            · simp [append_bucket, hab, isMetaB, isHeapB, isFileMmapB, blen,
                hsp, hz, calc_buffered] <;> omega
          · by_cases hz : bl = 0
            · simp [append_bucket, hab, isMetaB, isHeapB, isFileMmapB, blen,
                hsp, hz, calc_buffered] <;> omega
            · simp [append_bucket, hab, isMetaB, isHeapB, isFileMmapB, blen,
                hsp, hz, calc_buffered] <;> omega
    | mmap =>
        by_cases hcf : beam.copy_files = true
        · cases hblk : blk with
          | true =>
              by_cases hsp : bl > space_left
              · by_cases hz : space_left = 0
                · subst hz
                  simp [append_bucket, hab, isMetaB, isHeapB, isFileMmapB, blen,
                    hcf, hsp, calc_buffered] <;> omega
                · simp [append_bucket, hab, isMetaB, isHeapB, isFileMmapB, blen,
                    hcf, hsp, hz, calc_buffered] <;> omega
              · by_cases hz : bl = 0
                · simp [append_bucket, hab, isMetaB, isHeapB, isFileMmapB, blen,
                    hcf, hsp, hz, calc_buffered] <;> omega
                · simp [append_bucket, hab, isMetaB, isHeapB, isFileMmapB, blen,
                    hcf, hsp, hz, calc_buffered] <;> omega
          | false =>
              by_cases hsp : SIZE_MAX > space_left
              · by_cases hz : space_left = 0
                · subst hz
                  simp [append_bucket, hab, isMetaB, isHeapB, isFileMmapB, blen,
                    hcf, hsp, calc_buffered] <;> omega
                · simp [append_bucket, hab, isMetaB, isHeapB, isFileMmapB, blen,
                    hcf, hsp, hz, calc_buffered] <;> omega
              · simp [append_bucket, hab, isMetaB, isHeapB, isFileMmapB, blen,
                  hcf, hsp, hsm.ne', calc_buffered] <;> omega
        · by_cases hz : (if blk then bl else SIZE_MAX) = 0
          · simp [append_bucket, hab, isMetaB, isHeapB, isFileMmapB, blen,
              hcf, hz, calc_buffered] <;> omega
          · simp [append_bucket, hab, isMetaB, isHeapB, isFileMmapB, blen,
              hcf, hz, calc_buffered] <;> omega
    | file rc =>
        by_cases hcan : (!beam.copy_files && (rc == 1)) = true
        · by_cases hz : (if blk then bl else SIZE_MAX) = 0
          · simp [append_bucket, hab, isMetaB, isHeapB, isFileMmapB, blen,
              hcan, hz, calc_buffered] <;> omega
          · simp [append_bucket, hab, isMetaB, isHeapB, isFileMmapB, blen,
              hcan, hz, calc_buffered] <;> omega
        · cases hblk : blk with
          | true =>
              by_cases hsp : bl > space_left
              · by_cases hz : space_left = 0
                · subst hz
                  simp [append_bucket, hab, isMetaB, isHeapB, isFileMmapB, blen,
                    hcan, hsp, calc_buffered] <;> omega
                · simp [append_bucket, hab, isMetaB, isHeapB, isFileMmapB, blen,
                    hcan, hsp, hz, calc_buffered] <;> omega
              · by_cases hz : bl = 0
                · simp [append_bucket, hab, isMetaB, isHeapB, isFileMmapB, blen,
                    hcan, hsp, hz, calc_buffered] <;> omega
                · simp [append_bucket, hab, isMetaB, isHeapB, isFileMmapB, blen,
                    hcan, hsp, hz, calc_buffered] <;> omega
          | false =>
              by_cases hsp : SIZE_MAX > space_left
              · by_cases hz : space_left = 0
                · subst hz
                  simp [append_bucket, hab, isMetaB, isHeapB, isFileMmapB, blen,
                    hcan, hsp, calc_buffered] <;> omega
                · simp [append_bucket, hab, isMetaB, isHeapB, isFileMmapB, blen,
                    hcan, hsp, hz, calc_buffered] <;> omega
              · simp [append_bucket, hab, isMetaB, isHeapB, isFileMmapB, blen,
                  hcan, hsp, hsm.ne', calc_buffered] <;> omega

theorem append_bucket_max (beam : Beam) (b : Bucket) (s : Nat) :
    (append_bucket beam b s).1.max_buf_size = beam.max_buf_size := by
  unfold append_bucket
  split
  · rfl
  split
  · rfl
  dsimp only
  split_ifs <;> rfl

theorem wait_not_full_go_eq_zero (env : Beam → Beam) (beam : Beam)
    (block : Block) :
    wait_not_full_go 0 env beam block
      = (if calc_space_left beam ≠ 0 then
          (beam, calc_space_left beam, some Status.SUCCESS)
        else if beam.aborted then (beam, 0, some Status.ECONNABORTED)
        else if block ≠ Block.blocking then (beam, 0, some Status.EAGAIN)
        else (beam, 0, if beam.timeout > 0 then some Status.TIMEUP else none)) :=
  rfl

theorem wait_not_full_go_eq_succ (f : Nat) (env : Beam → Beam) (beam : Beam)
    (block : Block) :
    wait_not_full_go (Nat.succ f) env beam block
      = (if calc_space_left beam ≠ 0 then
          (beam, calc_space_left beam, some Status.SUCCESS)
        else if beam.aborted then (beam, 0, some Status.ECONNABORTED)
        else if block ≠ Block.blocking then (beam, 0, some Status.EAGAIN)
        else wait_not_full_go f env (env beam) block) :=
  rfl

theorem wait_not_full_go_bound (fuel : Nat) (env : Beam → Beam) (block : Block)
    (N : Nat) (hN : 0 < N) (henv : EnvBound N env) :
    ∀ beam, beam.max_buf_size = N → calc_buffered beam ≤ N →
    (wait_not_full_go fuel env beam block).1.max_buf_size = N ∧
    calc_buffered (wait_not_full_go fuel env beam block).1
      + (wait_not_full_go fuel env beam block).2.1 ≤ N := by
  induction fuel with
  | zero =>
      intro beam hmax hbuf
      rw [wait_not_full_go_eq_zero]
      by_cases h1 : calc_space_left beam ≠ 0
      · have hle : calc_buffered beam + calc_space_left beam ≤ N := by
          rw [calc_space_left, hmax, if_pos hN]
          split <;> omega
        rw [if_pos h1]
        exact ⟨hmax, by simpa using hle⟩
      · rw [if_neg h1]
        split
        · exact ⟨hmax, by simpa using hbuf⟩
        split
        · exact ⟨hmax, by simpa using hbuf⟩
        · exact ⟨hmax, by simpa using hbuf⟩
  | succ f ih =>
      intro beam hmax hbuf
      rw [wait_not_full_go_eq_succ]
      by_cases h1 : calc_space_left beam ≠ 0
      · have hle : calc_buffered beam + calc_space_left beam ≤ N := by
          rw [calc_space_left, hmax, if_pos hN]
          split <;> omega
        rw [if_pos h1]
        exact ⟨hmax, by simpa using hle⟩
      · rw [if_neg h1]
        split
        · exact ⟨hmax, by simpa using hbuf⟩
        split
        · exact ⟨hmax, by simpa using hbuf⟩
        · exact ih (env beam) (henv beam hmax hbuf).1 (henv beam hmax hbuf).2

theorem send_loop_eq_cons (f : Nat) (env : Beam → Beam) (beam : Beam)
    (b : Bucket) (rest : List Bucket) (block : Block) (space_left : Nat) :
    send_loop (Nat.succ f) env beam (b :: rest) block space_left
      = (if space_left = 0 then
          let w := wait_not_full_go f env (r_purge_sent beam) block
          if w.2.2 = some Status.SUCCESS then
            send_loop f env w.1 (b :: rest) block w.2.1
          else (w.1, b :: rest, w.2.2)
        else
          let a := append_bucket beam b space_left
          if a.2.2.2 = Status.SUCCESS then
            send_loop f env a.1 (a.2.1 ++ rest) block a.2.2.1
          else (a.1, a.2.1 ++ rest, some a.2.2.2)) :=
  rfl

theorem send_loop_bound (fuel : Nat) (env : Beam → Beam) (block : Block)
    (N : Nat) (hN : 0 < N) (henv : EnvBound N env) :
    ∀ beam bb space_left, beam.max_buf_size = N →
      calc_buffered beam + space_left ≤ N →
      (∀ c ∈ bb, (isMetaB c = true → blen c = 0) ∧ c.len ≤ SIZE_MAX) →
      (send_loop fuel env beam bb block space_left).1.max_buf_size = N ∧
      calc_buffered (send_loop fuel env beam bb block space_left).1 ≤ N := by
  induction fuel with
  | zero =>
      intro beam bb space_left hmax hinv hbb
      refine ⟨hmax, ?_⟩
      show calc_buffered beam ≤ N
      omega
  | succ f ih =>
      intro beam bb space_left hmax hinv hbb
      cases bb with
      | nil =>
          refine ⟨hmax, ?_⟩
          show calc_buffered beam ≤ N
          omega
      | cons b rest =>
          rw [send_loop_eq_cons]
          by_cases hsp : space_left = 0
          · rw [if_pos hsp]
            have hw := wait_not_full_go_bound f env block N hN henv
              (r_purge_sent beam) hmax (by show calc_buffered beam ≤ N; omega)
            by_cases hws : (wait_not_full_go f env (r_purge_sent beam)
                block).2.2 = some Status.SUCCESS
            · rw [if_pos hws]
              exact ih _ (b :: rest) _ hw.1 hw.2 hbb
            · rw [if_neg hws]
              refine ⟨hw.1, ?_⟩
              have h2 := hw.2
              dsimp only
              omega
          · rw [if_neg hsp]
            have hb := hbb b (List.mem_cons_self b rest)
            have ha := append_bucket_bound beam b space_left N hb.1 hb.2 hinv
            have hamax : (append_bucket beam b space_left).1.max_buf_size = N := by
              rw [append_bucket_max, hmax]
            by_cases has : (append_bucket beam b space_left).2.2.2
                = Status.SUCCESS
            · rw [if_pos has]
              refine ih _ _ _ hamax ha.1 ?_
              intro c hc
              rcases List.mem_append.mp hc with hc1 | hc2
              · exact ha.2 c hc1
              · exact hbb c (List.mem_cons_of_mem b hc2)
            · rw [if_neg has]
              refine ⟨hamax, ?_⟩
              have h2 := ha.1
              dsimp only
              omega

/-- C5 (amended): for an open beam (not closed, not aborted) with
`max_buf_size = N > 0` whose buffered amount is within the bound, every
send leaves the total length of non-file/non-mmap known-length buckets in
the send_list at most N: append_bucket splits oversized buckets at the
remaining space and blocks (or returns would-block) when space is
exhausted, while beamable file and mmap buckets bypass the bound.  (On a
closed or aborted beam the brigade bypasses append_bucket entirely and the
bound can be exceeded, see the counterexample.) -/
theorem send_buffered_bounded (fuel : Nat) (env : Beam → Beam) (beam : Beam)
    (bb : List Bucket) (block : Block) (N : Nat)
    (hN : 0 < N) (hmax : beam.max_buf_size = N)
    (hab : beam.aborted = false) (hcl : beam.closed = false)
    (hbuf : calc_buffered beam ≤ N) (henv : EnvBound N env)
    (hbb : ∀ c ∈ bb, (isMetaB c = true → blen c = 0) ∧ c.len ≤ SIZE_MAX) :
    calc_buffered (h2_beam_send fuel env beam (some bb) block).1 ≤ N := by
  have hinv : calc_buffered (r_purge_sent beam) + calc_space_left (r_purge_sent beam) ≤ N := by
    have : calc_buffered (r_purge_sent beam) = calc_buffered beam := rfl
    rw [this]
    have hm2 : (r_purge_sent beam).max_buf_size = N := hmax
    rw [calc_space_left, hm2, if_pos hN]
    show calc_buffered beam + (if N > calc_buffered (r_purge_sent beam) then _ else 0) ≤ N
    split <;> omega
  have hl := send_loop_bound fuel env block N hN henv (r_purge_sent beam) bb
    (calc_space_left (r_purge_sent beam)) hmax hinv hbb
  have hab2 : (r_purge_sent beam).aborted = false := hab
  have hcl2 : (r_purge_sent beam).closed = false := hcl
  have hrep : ∀ x : Beam, calc_buffered (report_consumption_upd x)
      = calc_buffered x := by
    intro x
    rw [report_consumption_upd_eq]
    rfl
  simp only [h2_beam_send, hab2, hcl2, Bool.false_eq_true, if_false]
  cases hst : (send_loop fuel env (r_purge_sent beam) bb block
      (calc_space_left (r_purge_sent beam))).2.2 with
  | none =>
      dsimp only
      exact hl.2
  | some st =>
      dsimp only
      rw [hrep]
      exact hl.2

/-- C5 counterexample: a send on a closed beam with `max_buf_size = 1`
dumps a 2-byte heap bucket straight into the send_list and returns
success; the buffered amount 2 exceeds the bound 1. -/
theorem buffered_bound_closed_cex :
    beamClosedN.max_buf_size = 1 ∧
    calc_buffered
      (h2_beam_send 5 id beamClosedN (some [bkt2]) Block.nonblocking).1 = 2 ∧
    (h2_beam_send 5 id beamClosedN (some [bkt2]) Block.nonblocking).2.2
      = some Status.SUCCESS := by
  decide

/-- C5 witness: the amended bound applied at a concrete open beam with
`max_buf_size = 3` and a 2-byte heap bucket. -/
theorem send_buffered_bounded_witness :
    calc_buffered
      (h2_beam_send 5 id beamMax3 (some [bkt2]) Block.nonblocking).1 ≤ 3 :=
  send_buffered_bounded 5 id beamMax3 [bkt2] Block.nonblocking 3
    (by decide) rfl rfl rfl (by decide) (fun s h1 h2 => ⟨h1, h2⟩)
    (by decide)

theorem counterStep_refl (s : Beam) : CounterStep s s :=
  ⟨le_rfl, le_rfl, le_rfl, id⟩

theorem counterStep_trans {a b c : Beam} (h1 : CounterStep a b)
    (h2 : CounterStep b c) : CounterStep a c :=
  ⟨le_trans h1.1 h2.1, le_trans h1.2.1 h2.2.1, le_trans h1.2.2.1 h2.2.2.1,
    fun h => h2.2.2.2 (h1.2.2.2 h)⟩

theorem counterStep_report (s : Beam) :
    CounterStep s (report_consumption_upd s) := by
  rw [report_consumption_upd_eq]
  exact ⟨le_rfl, le_rfl, le_max_left _ _, fun h => max_le h le_rfl⟩

theorem counterStep_cleanup (s : Beam) :
    CounterStep s (recv_buffer_cleanup s) := by
  unfold recv_buffer_cleanup
  cases hrb : s.recv_buffer with
  | none => exact counterStep_refl s
  | some l =>
      dsimp only
      by_cases hl : l.isEmpty = true
      · rw [if_pos hl]
        exact counterStep_refl s
      · rw [if_neg hl]
        exact ⟨le_rfl, Nat.le_add_right _ _, le_rfl,
          fun h => le_trans h (Nat.le_add_right _ _)⟩

theorem counterStep_append (beam : Beam) (b : Bucket) (s : Nat) :
    CounterStep beam (append_bucket beam b s).1 := by
  unfold append_bucket
  split
  · exact counterStep_refl _
  split
  · exact ⟨le_rfl, le_rfl, le_rfl, id⟩
  dsimp only
  split_ifs <;>
    first
    | exact ⟨le_rfl, le_rfl, le_rfl, id⟩
    | exact ⟨Nat.le_add_right _ _, le_rfl, le_rfl, id⟩

theorem counterStep_wait_not_full (fuel : Nat) (env : Beam → Beam)
    (block : Block) (henv : EnvCounterMono env) :
    ∀ beam, CounterStep beam (wait_not_full_go fuel env beam block).1 := by
  induction fuel with
  | zero =>
      intro beam
      rw [wait_not_full_go_eq_zero]
      split_ifs <;> exact counterStep_refl _
  | succ f ih =>
      intro beam
      rw [wait_not_full_go_eq_succ]
      split_ifs <;>
        first
        | exact counterStep_refl _
        | exact counterStep_trans (henv beam) (ih (env beam))

theorem counterStep_send_loop (fuel : Nat) (env : Beam → Beam) (block : Block)
    (henv : EnvCounterMono env) :
    ∀ beam bb space_left,
      CounterStep beam (send_loop fuel env beam bb block space_left).1 := by
  induction fuel with
  | zero => intro beam bb space_left; exact counterStep_refl _
  | succ f ih =>
      intro beam bb space_left
      cases bb with
      | nil => exact counterStep_refl _
      | cons b rest =>
          rw [send_loop_eq_cons]
          by_cases hsp : space_left = 0
          · rw [if_pos hsp]
            have h1 : CounterStep beam (r_purge_sent beam) :=
              ⟨le_rfl, le_rfl, le_rfl, id⟩
            have h2 := counterStep_wait_not_full f env block henv
              (r_purge_sent beam)
            by_cases hws : (wait_not_full_go f env (r_purge_sent beam)
                block).2.2 = some Status.SUCCESS
            · rw [if_pos hws]
              exact counterStep_trans (counterStep_trans h1 h2) (ih _ _ _)
            · rw [if_neg hws]
              exact counterStep_trans h1 h2
          · rw [if_neg hsp]
            have h1 := counterStep_append beam b space_left
            by_cases has : (append_bucket beam b space_left).2.2.2
                = Status.SUCCESS
            · rw [if_pos has]
              exact counterStep_trans h1 (ih _ _ _)
            · rw [if_neg has]
              exact h1

theorem counterStep_send (fuel : Nat) (env : Beam → Beam)
    (bb : Option (List Bucket)) (block : Block) (henv : EnvCounterMono env)
    (beam : Beam) :
    CounterStep beam (h2_beam_send fuel env beam bb block).1 := by
  have h0 : ∀ l, CounterStep beam (move_to_hold (r_purge_sent beam) l) :=
    fun l => ⟨le_rfl, le_rfl, le_rfl, id⟩
  unfold h2_beam_send
  by_cases hab : (r_purge_sent beam).aborted = true
  · rw [if_pos hab]
    exact counterStep_trans (h0 _) (counterStep_report _)
  · rw [if_neg hab]
    by_cases hcl : (r_purge_sent beam).closed = true
    · rw [if_pos hcl]
      exact counterStep_trans (h0 _) (counterStep_report _)
    · rw [if_neg hcl]
      cases bb with
      | none =>
          dsimp only
          exact counterStep_trans
            (show CounterStep beam (r_purge_sent beam) from
              ⟨le_rfl, le_rfl, le_rfl, id⟩)
            (counterStep_report _)
      | some l =>
          dsimp only
          have h1 := counterStep_send_loop fuel env block henv
            (r_purge_sent beam) l (calc_space_left (r_purge_sent beam))
          have h2 : CounterStep beam
              (send_loop fuel env (r_purge_sent beam) l block
                (calc_space_left (r_purge_sent beam))).1 :=
            counterStep_trans ⟨le_rfl, le_rfl, le_rfl, id⟩ h1
          cases hst : (send_loop fuel env (r_purge_sent beam) l block
              (calc_space_left (r_purge_sent beam))).2.2 with
          | none => exact h2
          | some st => exact counterStep_trans h2 (counterStep_report _)

theorem transfer_send_eq_cons (b : Bucket) (rest : List Bucket) (beam : Beam)
    (bb : List RBucket) (remain : Int) (t tb : Nat) :
    transfer_send (b :: rest) beam bb remain t tb
      = (if remain < 0 then (b :: rest, beam, bb, remain, t, tb)
         else if blen b > 0 ∧ remain ≤ 0 then (b :: rest, beam, bb, remain, t, tb)
         else
           match b.kind with
           | .meta m =>
               let beam1 :=
                 if m = MetaKind.eos then { beam with close_sent := true }
                 else beam
               let brecv : RBucket := { rkind := RKind.rmeta m, len := 0 }
               let beam2 := { beam1 with
                   hold_list := beam1.hold_list ++ [b]
                   received_bytes := beam1.received_bytes + blen b }
               transfer_send rest beam2 (bb ++ [brecv])
                 (remain - (brecv.len : Int)) (t + 1) (tb + 1)
           | _ =>
             if blen b = 0 then
               transfer_send rest
                 { beam with hold_list := beam.hold_list ++ [b] } bb remain t tb
             else
               match b.kind with
               | .file _ =>
                   let ng : RBucket :=
                     { rkind := RKind.fileView b.id, len := blen b }
                   let beam2 := { beam with
                       hold_list := beam.hold_list ++ [b]
                       received_bytes := beam.received_bytes + blen b }
                   transfer_send rest beam2 (bb ++ [ng])
                     (remain - (blen b : Int)) (t + 1) (tb + 1)
               | _ =>
                   let pr : Proxy :=
                     { n := beam.buckets_sent, bsender := some b.id,
                       hasBeam := true }
                   let brecv : RBucket :=
                     { rkind := RKind.proxyRef b.id (isFileMmapB b),
                       len := blen b }
                   let beam2 := { beam with
                       proxies := beam.proxies ++ [pr]
                       buckets_sent := beam.buckets_sent + 1
                       hold_list := beam.hold_list ++ [b]
                       received_bytes := beam.received_bytes + blen b }
                   transfer_send rest beam2 (bb ++ [brecv])
                     (remain - (blen b : Int)) (t + 1) (tb + 1)) :=
  rfl

theorem counterStep_transfer :
    ∀ (sl : List Bucket) (beam : Beam) (bb : List RBucket) (remain : Int)
      (t tb : Nat), CounterStep beam (transfer_send sl beam bb remain t tb).2.1 := by
  intro sl
  induction sl with
  | nil => intro beam bb remain t tb; exact counterStep_refl _
  | cons b rest ih =>
      intro beam bb remain t tb
      rw [transfer_send_eq_cons]
      by_cases h1 : remain < 0
      · rw [if_pos h1]; exact counterStep_refl _
      rw [if_neg h1]
      by_cases h2 : blen b > 0 ∧ remain ≤ 0
      · rw [if_pos h2]; exact counterStep_refl _
      rw [if_neg h2]
      rcases b with ⟨bid, bkind, bl, blk⟩
      cases bkind with
      | meta m =>
          dsimp only
          by_cases hm : m = MetaKind.eos
          · rw [if_pos hm]
            refine counterStep_trans ?_ (ih _ _ _ _ _)
            exact ⟨le_rfl, Nat.le_add_right _ _, le_rfl,
              fun h => le_trans h (Nat.le_add_right _ _)⟩
          · rw [if_neg hm]
            refine counterStep_trans ?_ (ih _ _ _ _ _)
            exact ⟨le_rfl, Nat.le_add_right _ _, le_rfl,
              fun h => le_trans h (Nat.le_add_right _ _)⟩
      | heap =>
          dsimp only
          split
          · refine counterStep_trans ?_ (ih _ _ _ _ _)
            exact ⟨le_rfl, le_rfl, le_rfl, id⟩
          · refine counterStep_trans ?_ (ih _ _ _ _ _)
            exact ⟨le_rfl, Nat.le_add_right _ _, le_rfl,
              fun h => le_trans h (Nat.le_add_right _ _)⟩
      | mmap =>
          dsimp only
          split
          · refine counterStep_trans ?_ (ih _ _ _ _ _)
            exact ⟨le_rfl, le_rfl, le_rfl, id⟩
          · refine counterStep_trans ?_ (ih _ _ _ _ _)
            exact ⟨le_rfl, Nat.le_add_right _ _, le_rfl,
              fun h => le_trans h (Nat.le_add_right _ _)⟩
      | transient =>
          dsimp only
          split
          · refine counterStep_trans ?_ (ih _ _ _ _ _)
            exact ⟨le_rfl, le_rfl, le_rfl, id⟩
          · refine counterStep_trans ?_ (ih _ _ _ _ _)
            exact ⟨le_rfl, Nat.le_add_right _ _, le_rfl,
              fun h => le_trans h (Nat.le_add_right _ _)⟩
      | file rc =>
          dsimp only
          split
          · refine counterStep_trans ?_ (ih _ _ _ _ _)
            exact ⟨le_rfl, le_rfl, le_rfl, id⟩
          · refine counterStep_trans ?_ (ih _ _ _ _ _)
            exact ⟨le_rfl, Nat.le_add_right _ _, le_rfl,
              fun h => le_trans h (Nat.le_add_right _ _)⟩

theorem counterStep_receive_pass (beam : Beam) (bb : List RBucket) (rb : Int) :
    CounterStep beam (receive_pass beam bb rb).1 := by
  unfold receive_pass
  dsimp only
  split <;> try split
  all_goals try split
  all_goals
    (refine counterStep_trans ?_ (counterStep_transfer _ _ _ _ _ _);
      exact ⟨le_rfl, le_rfl, le_rfl, id⟩)

theorem wait_not_empty_go_eq_zero (env : Beam → Beam) (beam : Beam)
    (block : Block) :
    wait_not_empty_go 0 env beam block
      = (if ¬ buffer_is_empty beam then (beam, some Status.SUCCESS)
         else if beam.aborted then (beam, some Status.ECONNABORTED)
         else if beam.closed then (beam, some Status.EOF)
         else if block ≠ Block.blocking then (beam, some Status.EAGAIN)
         else (beam, if beam.timeout > 0 then some Status.TIMEUP else none)) :=
  rfl

theorem wait_not_empty_go_eq_succ (f : Nat) (env : Beam → Beam) (beam : Beam)
    (block : Block) :
    wait_not_empty_go (Nat.succ f) env beam block
      = (if ¬ buffer_is_empty beam then (beam, some Status.SUCCESS)
         else if beam.aborted then (beam, some Status.ECONNABORTED)
         else if beam.closed then (beam, some Status.EOF)
         else if block ≠ Block.blocking then (beam, some Status.EAGAIN)
         else wait_not_empty_go f env (env beam) block) :=
  rfl

theorem counterStep_wait_not_empty (env : Beam → Beam) (block : Block)
    (henv : EnvCounterMono env) :
    ∀ (fuel : Nat) (beam : Beam),
      CounterStep beam (wait_not_empty_go fuel env beam block).1 := by
  intro fuel
  induction fuel with
  | zero =>
      intro beam
      rw [wait_not_empty_go_eq_zero]
      split_ifs <;> exact counterStep_refl _
  | succ f ih =>
      intro beam
      rw [wait_not_empty_go_eq_succ]
      split_ifs <;>
        first
        | exact counterStep_refl _
        | exact counterStep_trans (henv beam) (ih (env beam))

theorem counterStep_receive_go (env : Beam → Beam) (block : Block) (rb : Int)
    (henv : EnvCounterMono env) :
    ∀ (fuel : Nat) (beam : Beam) (bb : List RBucket),
      CounterStep beam (receive_go env fuel beam bb block rb).1 := by
  intro fuel
  induction fuel with
  | zero =>
      intro beam bb
      rw [receive_go_eq]
      by_cases hab : beam.aborted = true
      · rw [if_pos hab]
        exact counterStep_cleanup beam
      rw [if_neg hab]
      dsimp only
      split
      · exact counterStep_receive_pass beam bb rb
      split
      · exact counterStep_receive_pass beam bb rb
      split
      · exact counterStep_trans (counterStep_receive_pass beam bb rb)
          (counterStep_wait_not_empty env block henv 0 _)
      · exact counterStep_trans (counterStep_receive_pass beam bb rb)
          (counterStep_wait_not_empty env block henv 0 _)
  | succ f ih =>
      intro beam bb
      rw [receive_go_eq]
      by_cases hab : beam.aborted = true
      · rw [if_pos hab]
        exact counterStep_cleanup beam
      rw [if_neg hab]
      dsimp only
      split
      · exact counterStep_receive_pass beam bb rb
      split
      · exact counterStep_receive_pass beam bb rb
      split
      · exact counterStep_trans
          (counterStep_trans (counterStep_receive_pass beam bb rb)
            (counterStep_wait_not_empty env block henv (Nat.succ f) _))
          (ih _ _)
      · exact counterStep_trans (counterStep_receive_pass beam bb rb)
          (counterStep_wait_not_empty env block henv (Nat.succ f) _)

theorem counterStep_close (beam : Beam) (bySender : Bool) :
    CounterStep beam (h2_beam_close beam bySender).1 := by
  unfold h2_beam_close
  cases bySender with
  | true =>
      dsimp only
      refine counterStep_trans ?_ (counterStep_report _)
      exact ⟨le_rfl, le_rfl, le_rfl, id⟩
  | false =>
      dsimp only
      refine counterStep_trans
        (show CounterStep beam
            (recv_buffer_cleanup { beam with closed := true }) from ?_) ?_
      · exact counterStep_cleanup { beam with closed := true }
      · exact ⟨le_rfl, le_rfl, le_rfl, id⟩

theorem counterStep_abort (beam : Beam) (bySender : Bool) :
    CounterStep beam (h2_beam_abort beam bySender) := by
  unfold h2_beam_abort
  cases bySender with
  | true =>
      dsimp only
      refine counterStep_trans ?_ (counterStep_report _)
      exact ⟨le_rfl, le_rfl, le_rfl, id⟩
  | false =>
      dsimp only
      exact counterStep_cleanup { beam with aborted := true }

theorem counterStep_emitted (beam : Beam) (p : Proxy) :
    CounterStep beam (h2_beam_emitted beam p) := by
  unfold h2_beam_emitted
  cases p.bsender with
  | none => exact ⟨le_rfl, le_rfl, le_rfl, id⟩
  | some sid =>
      dsimp only
      split
      · exact ⟨le_rfl, le_rfl, le_rfl, id⟩
      · exact ⟨le_rfl, le_rfl, le_rfl, id⟩

theorem counterStep_destroy (beam : Beam) (p : Proxy) :
    CounterStep beam (beam_bucket_destroy p beam) := by
  unfold beam_bucket_destroy
  split
  · exact counterStep_emitted beam p
  · exact counterStep_refl beam

theorem counterStep_send_cleanup (beam : Beam) :
    CounterStep beam (beam_send_cleanup beam).1 := by
  unfold beam_send_cleanup
  dsimp only
  refine counterStep_trans
    (show CounterStep beam (report_consumption_upd
        { r_purge_sent beam with send_list := [] }) from ?_) ?_
  · refine counterStep_trans ?_ (counterStep_report _)
    exact ⟨le_rfl, le_rfl, le_rfl, id⟩
  · exact ⟨le_rfl, le_rfl, le_rfl, id⟩

/-- C4 (amended): every beam operation grows `sent_bytes`,
`received_bytes` and `cons_bytes_reported` monotonically (no operation,
before or after an abort, decreases them) and preserves
`received_bytes ≥ cons_bytes_reported`.  The remaining chain
`sent_bytes ≥ received_bytes` is not an invariant: discarding a non-empty
recv_buffer (receiver abort/close) credits its bytes to `received_bytes` a
second time (see the counterexample). -/
theorem counters_monotone_ok (op : BeamOp) (s : Beam)
    (hop : opCountersOK op) : CounterStep s (applyOp op s) := by
  cases op with
  | send fuel env bb block => exact counterStep_send fuel env bb block hop s
  | receive fuel env bb block rb =>
      exact counterStep_receive_go env block _ hop fuel s bb
  | close bySender => exact counterStep_close s bySender
  | abort bySender => exact counterStep_abort s bySender
  | emitted p => exact counterStep_emitted s p
  | destroyProxy p => exact counterStep_destroy s p
  | sendCleanup => exact counterStep_send_cleanup s
  | reportConsumption => exact counterStep_report s

/-- C4 witness: the theorem applied to a close operation on the fresh
beam. -/
theorem counters_monotone_ok_witness :
    CounterStep beam0 (applyOp (BeamOp.close true) beam0) :=
  counters_monotone_ok (BeamOp.close true) beam0 trivial

/-- C4 counterexample: send 100 heap bytes, receive 50 of them (the other
50 are parked in the recv_buffer as a split proxy tail), then the receiver
aborts; recv_buffer_cleanup adds the 50 parked bytes to `received_bytes` a
second time, so `received_bytes = 150 > 100 = sent_bytes`, violating
`sent_bytes ≥ received_bytes`. -/
theorem received_exceeds_sent_cex :
    c4AfterAbort.sent_bytes = 100 ∧
    c4AfterAbort.received_bytes = 150 ∧
    ¬ (c4AfterAbort.received_bytes ≤ c4AfterAbort.sent_bytes) := by
  decide
